import Mathlib

/-!
Verification of the Turing-machine simulator in src/main.py.

The embedding models the two components of the program:

* Tape (src/main.py, class Tape): the doubly linked list of cells with a
  head pointer is modelled as a zipper: the cells strictly to the left of
  the head (nearest first), the cell under the head, and the cells strictly
  to the right (nearest first).  All observable tape operations (GetCurrent,
  Write, GoRight, GoLeft, GetLeftSide, GetRightSide) are translated from the
  source.  The constructor indexes string[0] unconditionally, so on an empty
  input it raises IndexError; Tape.make returns an Option, with none for
  that exception.

* TuringMachine (src/main.py, class TuringMachine): the immutable machine
  definition is the structure TuringMachine; the mutable object fields set
  in the constructor (tape, cache, current_state, rejection_reason,
  steps_count) form the structure Engine.  Run mutates the engine and
  prints; the embedding returns the final engine together with the
  accept/reject outcome, the sequence of instantaneous descriptions that
  the loop prints (one per loop iteration), the number of transitions
  actually applied, and which branch ended the loop.  The while loop is a
  fuel-indexed structural recursion; Run supplies MAX_STEPS + 1 fuel, which
  is enough because the loop breaks as soon as the step counter exceeds
  MAX_STEPS.

Symbols and states are strings, as in the Python code (the characters of
the input string and the values produced by ParseConfig are all strings).
-/

namespace PROY3

abbrev Sym := String

abbrev St := String

/-- Constant BLANK_SYMBOL of src/main.py line 7. -/
def BLANK_SYMBOL : Sym := "_"

/-- Constant RIGHT of src/main.py line 8. -/
def RIGHT : String := "R"

/-- Constant LEFT of src/main.py line 9. -/
def LEFT : String := "L"

/-- Constant MAX_STEPS of src/main.py line 10. -/
def MAX_STEPS : Nat := 500

/-- Zipper view of the doubly linked tape of class Tape: cells left of the
head (nearest first), the cell under the head, cells right of the head
(nearest first), and the blank symbol stored by the tape. -/
structure Tape where
  left : List Sym
  cur : Sym
  right : List Sym
  blank : Sym
deriving DecidableEq

/-- Constructor of class Tape (src/main.py lines 146-159).  It calls
SetInitialNode(string[0]) unconditionally and then appends the remaining
characters, leaving the head on the origin; on an empty input string[0]
raises IndexError, modelled as none. -/
def Tape.make (string : List Sym) (blank : Sym) : Option Tape :=
  match string with
  | [] => none
  | c :: rest => some { left := [], cur := c, right := rest, blank := blank }

/-- Tape.GoRight (lines 161-168): move right, materializing a blank cell
when no cell exists there yet. -/
def Tape.GoRight (t : Tape) : Tape :=
  match t.right with
  | [] => { left := t.cur :: t.left, cur := t.blank, right := [], blank := t.blank }
  | r :: rs => { left := t.cur :: t.left, cur := r, right := rs, blank := t.blank }

/-- Tape.GoLeft (lines 170-177): move left, materializing a blank cell when
no cell exists there yet. -/
def Tape.GoLeft (t : Tape) : Tape :=
  match t.left with
  | [] => { left := [], cur := t.blank, right := t.cur :: t.right, blank := t.blank }
  | l :: ls => { left := ls, cur := l, right := t.cur :: t.right, blank := t.blank }

/-- Tape.Write (lines 179-183): overwrite the cell under the head. -/
def Tape.Write (t : Tape) (value : Sym) : Tape :=
  { t with cur := value }

/-- Tape.GetCurrent (lines 185-189). -/
def Tape.GetCurrent (t : Tape) : Sym := t.cur

/-- Tape.GetLeftSide (lines 191-200), as the list of cells left of the head
in tape order (farthest first); the source joins it with commas. -/
def Tape.GetLeftSide (t : Tape) : List Sym := t.left.reverse

/-- Tape.GetRightSide (lines 202-211), as the list of cells right of the
head in tape order (nearest first). -/
def Tape.GetRightSide (t : Tape) : List Sym := t.right

/-- One transition-table value as produced by ParseConfig (src/main.py line
288): ((new state, new cache), tape output, displacement). -/
structure Rule where
  new_state : St
  new_cache : Sym
  tape_output : Sym
  head_direction : String
deriving DecidableEq

/-- Transition-table key ((state, cache value), tape value), src/main.py
line 77. -/
abbrev TKey := (St × Sym) × Sym

/-- Dictionary lookup over the tuple-keyed transition table.  ParseConfig
builds a Python dict, so keys are unique; the table is embedded as an
association list. -/
def lookupKey {α : Type} (k : TKey) : List (TKey × α) → Option α
  | [] => none
  | (k', v) :: rest => if k = k' then some v else lookupKey k rest

abbrev TransitionFunction := List (TKey × Rule)

/-- Immutable machine definition: the seven parameters of the constructor
of class TuringMachine (src/main.py lines 13-26).  Python sets become
lists; machine_type only affects printing and is omitted. -/
structure TuringMachine where
  alphabet : List Sym
  input_symbols : List Sym
  states : List St
  initial_state : St
  accepting_states : List St
  transition_function : TransitionFunction
  blank_symbol : Sym
deriving DecidableEq

/-- Mutable object state of a TuringMachine instance: the fields assigned
in the constructor (src/main.py lines 28-32) alongside the stored machine
definition. -/
structure Engine where
  machine : TuringMachine
  tape : Option Tape
  cache : Sym
  current_state : St
  rejection_reason : Option String
  steps_count : Nat
deriving DecidableEq

/-- TuringMachine.__init__ (src/main.py lines 13-32): stores the definition
verbatim and sets tape = None, cache = blank symbol, current_state =
initial state, rejection_reason = None, steps_count = 0.  No validation of
any kind is performed. -/
def mkEngine (alphabet input_symbols : List Sym) (states : List St)
    (initial_state : St) (accepting_states : List St)
    (transition_function : TransitionFunction) (blank_symbol : Sym) : Engine :=
  { machine :=
      { alphabet := alphabet
        input_symbols := input_symbols
        states := states
        initial_state := initial_state
        accepting_states := accepting_states
        transition_function := transition_function
        blank_symbol := blank_symbol }
    tape := none
    cache := blank_symbol
    current_state := initial_state
    rejection_reason := none
    steps_count := 0 }

/-- TuringMachine.GetTransition (src/main.py lines 73-88) on a well-typed
table: look up ((state, cache_value), tape_value); a missing key returns
None (modelled none).  The malformed-value branch is analysed separately on
the raw value model below. -/
def TuringMachine.GetTransition (m : TuringMachine) (state : St)
    (tape_value cache_value : Sym) : Option Rule :=
  lookupKey ((state, cache_value), tape_value) m.transition_function

/-- Rejection message of src/main.py line 56; it interpolates only the
current state and the current tape character, not the cache value. -/
def noTransitionMsg (state : St) (curr_char : Sym) : String :=
  "No valid transition for (" ++ state ++ ", " ++ curr_char ++ ")"

/-- Rejection message of src/main.py line 48. -/
def budgetMsg : String :=
  "Máximo de " ++ toString MAX_STEPS ++ " pasos excedido"

/-- Which branch ended the while loop of Run: the loop condition became
false (state accepting), the step budget broke out, the missing-transition
break, or the fuel of the embedding ran out (proved unreachable from Run). -/
inductive ExitKind where
  | accepted
  | budget
  | noTransition
  | fuelOut
deriving DecidableEq

/-- Result of the while loop of Run: the final values of the mutable
fields, plus the printed instantaneous descriptions (state, cache, tape at
the top of each iteration), the number of transitions applied, and the
branch that ended the loop. -/
structure LoopResult where
  state : St
  cache : Sym
  steps_count : Nat
  tape : Tape
  rejection_reason : Option String
  trace : List (St × Sym × Tape)
  applied : Nat
  exitKind : ExitKind
deriving DecidableEq

/-- Head movement of src/main.py lines 63-66: move right on RIGHT, left on
LEFT, and otherwise do not move. -/
def applyDisplacement (t : Tape) (dir : String) : Tape :=
  if dir = RIGHT then t.GoRight
  else if dir = LEFT then t.GoLeft
  else t

/-- The while loop of TuringMachine.Run (src/main.py lines 42-66), indexed
by fuel (structural recursion).  Each iteration: exit if the state is
accepting; record the instantaneous description (the print of line 43);
increment the step counter and break with the budget message if it exceeds
MAX_STEPS; read the current character; look up the transition and break
with the no-transition message if absent; otherwise write the output, move
the head, and continue in the new state and cache. -/
def loop (m : TuringMachine) : Nat → St → Sym → Nat → Tape → Option String → LoopResult
  | 0, state, cache, steps, tape, reason =>
      { state := state, cache := cache, steps_count := steps, tape := tape,
        rejection_reason := reason, trace := [], applied := 0,
        exitKind := ExitKind.fuelOut }
  | fuel + 1, state, cache, steps, tape, reason =>
      if state ∈ m.accepting_states then
        { state := state, cache := cache, steps_count := steps, tape := tape,
          rejection_reason := reason, trace := [], applied := 0,
          exitKind := ExitKind.accepted }
      else
        if steps + 1 > MAX_STEPS then
          { state := state, cache := cache, steps_count := steps + 1, tape := tape,
            rejection_reason := some budgetMsg,
            trace := [(state, cache, tape)], applied := 0,
            exitKind := ExitKind.budget }
        else
          match m.GetTransition state tape.GetCurrent cache with
          | none =>
              { state := state, cache := cache, steps_count := steps + 1, tape := tape,
                rejection_reason := some (noTransitionMsg state tape.GetCurrent),
                trace := [(state, cache, tape)], applied := 0,
                exitKind := ExitKind.noTransition }
          | some rule =>
              let tape' := applyDisplacement (tape.Write rule.tape_output) rule.head_direction
              let r := loop m fuel rule.new_state rule.new_cache (steps + 1) tape' reason
              { r with trace := (state, cache, tape) :: r.trace, applied := r.applied + 1 }

/-- Accept or reject classification printed at the end of Run (src/main.py
lines 68-71): accepted when the final state is accepting, otherwise
rejected with the stored rejection reason (None when no reason was set). -/
inductive Outcome where
  | accepted
  | rejected (reason : Option String)
deriving DecidableEq

/-- Observable result of one call to Run: the outcome, the mutated engine,
the printed trace, the number of transitions applied, and the branch that
ended the loop. -/
structure RunResult where
  outcome : Outcome
  engine : Engine
  trace : List (St × Sym × Tape)
  applied : Nat
  exitKind : ExitKind
deriving DecidableEq

/-- TuringMachine.Run (src/main.py lines 34-71).  It builds a fresh Tape
from the input (none on the IndexError for an empty input), resets
steps_count to 0, but does NOT reset current_state, cache or
rejection_reason, then executes the while loop and classifies the final
state.  Fuel MAX_STEPS + 1 is enough for the loop, which breaks once the
step counter exceeds MAX_STEPS. -/
def Engine.Run (e : Engine) (input : List Sym) : Option RunResult :=
  match Tape.make input e.machine.blank_symbol with
  | none => none
  | some tape =>
      let r := loop e.machine (MAX_STEPS + 1) e.current_state e.cache 0 tape e.rejection_reason
      some
        { outcome :=
            if r.state ∈ e.machine.accepting_states then Outcome.accepted
            else Outcome.rejected r.rejection_reason
          engine :=
            { machine := e.machine
              tape := some r.tape
              cache := r.cache
              current_state := r.state
              rejection_reason := r.rejection_reason
              steps_count := r.steps_count }
          trace := r.trace
          applied := r.applied
          exitKind := r.exitKind }

/-!
Raw value model for GetTransition.  ParseConfig stores Python tuples
((new_state, new_cache), tape_output, tape_displacement) in the dictionary;
GetTransition (src/main.py lines 80-86) unpacks transition[0] and
transition[1:] inside a try block that catches only IndexError and then
aborts the whole process.  To analyse that branch the stored values are
modelled as a small Python-value type.
-/

/-- Miniature Python value: a string or a tuple, covering everything
ParseConfig can place in the transition dictionary. -/
inductive PyVal where
  | str (s : String)
  | tup (elems : List PyVal)

/-- Python exceptions the unpacking code can raise: IndexError from
indexing past the end, ValueError from unpacking an iterable of the wrong
length. -/
inductive PyErr where
  | indexError
  | valueError
deriving DecidableEq

/-- Python indexing v[i]: a tuple yields an element, a string yields a
one-character string; out of range raises IndexError. -/
def pyIndex (v : PyVal) (i : Nat) : Except PyErr PyVal :=
  match v with
  | PyVal.str s =>
      match s.toList.get? i with
      | some c => Except.ok (PyVal.str (String.mk [c]))
      | none => Except.error PyErr.indexError
  | PyVal.tup l =>
      match l.get? i with
      | some x => Except.ok x
      | none => Except.error PyErr.indexError

/-- Python slicing v[1:]: never raises. -/
def pySlice1 : PyVal → PyVal
  | PyVal.str s => PyVal.str (String.mk s.toList.tail)
  | PyVal.tup l => PyVal.tup l.tail

/-- Python unpacking a, b = v: succeeds exactly on a two-element iterable;
a wrong length raises ValueError. -/
def pyUnpack2 : PyVal → Except PyErr (PyVal × PyVal)
  | PyVal.str s =>
      match s.toList with
      | [a, b] => Except.ok (PyVal.str (String.mk [a]), PyVal.str (String.mk [b]))
      | _ => Except.error PyErr.valueError
  | PyVal.tup [a, b] => Except.ok (a, b)
  | PyVal.tup _ => Except.error PyErr.valueError

/-- Possible results of the unpacking in GetTransition: the four components
on success; the caught-IndexError branch that prints Malformed transition
in configuration and exits the process; or an uncaught exception that
propagates out of GetTransition. -/
inductive DecodeResult where
  | ok (new_state new_cache tape_output head_direction : PyVal)
  | malformedExit
  | uncaught (e : PyErr)

/-- Lines 80-86 of src/main.py on a raw stored value: new_state, new_cache
= transition[0]; tape_output, head_direction = transition[1:]; only
IndexError is caught by the except clause. -/
def decodeTransition (transition : PyVal) : DecodeResult :=
  match pyIndex transition 0 with
  | Except.error PyErr.indexError => DecodeResult.malformedExit
  | Except.error e => DecodeResult.uncaught e
  | Except.ok first =>
      match pyUnpack2 first with
      | Except.error e => DecodeResult.uncaught e
      | Except.ok (ns, nc) =>
          match pyUnpack2 (pySlice1 transition) with
          | Except.error e => DecodeResult.uncaught e
          | Except.ok (out, dir) => DecodeResult.ok ns nc out dir

/-- GetTransition over the raw table: none models the key-missing path that
returns None, None, None, None; a present key runs the unpacking code on
the stored value. -/
def GetTransitionRaw (tf : List (TKey × PyVal)) (state : St)
    (tape_value cache_value : Sym) : Option DecodeResult :=
  Option.map decodeTransition (lookupKey ((state, cache_value), tape_value) tf)

/-- A stored value is well formed when it is the triple ((new state, new
cache), output symbol, displacement) that ParseConfig line 288 builds. -/
def WellFormedPy (v : PyVal) : Prop :=
  ∃ ns nc out dir,
    v = PyVal.tup [PyVal.tup [PyVal.str ns, PyVal.str nc], PyVal.str out, PyVal.str dir]

/-!
Relational presentation of the while loop, used to state determinism.
A configuration holds the mutable fields the loop touches; one derivation
of RunEval m c c' tr says that from configuration c the loop of Run
terminates in configuration c' having printed the trace tr.  The four
constructors are exactly the four ways an iteration can go in src/main.py
lines 42-66.
-/

/-- Mutable loop configuration: current state, cache, step counter, tape
and stored rejection reason. -/
structure Config where
  state : St
  cache : Sym
  steps_count : Nat
  tape : Tape
  rejection_reason : Option String
deriving DecidableEq

/-- Big-step evaluation relation of the while loop of Run. -/
inductive RunEval (m : TuringMachine) : Config → Config → List (St × Sym × Tape) → Prop where
  | accept (c : Config) (h : c.state ∈ m.accepting_states) :
      RunEval m c c []
  | budget (c : Config) (hacc : c.state ∉ m.accepting_states)
      (hstep : c.steps_count + 1 > MAX_STEPS) :
      RunEval m c
        { c with steps_count := c.steps_count + 1,
                 rejection_reason := some budgetMsg }
        [(c.state, c.cache, c.tape)]
  | stuck (c : Config) (hacc : c.state ∉ m.accepting_states)
      (hstep : ¬ c.steps_count + 1 > MAX_STEPS)
      (hlk : m.GetTransition c.state c.tape.GetCurrent c.cache = none) :
      RunEval m c
        { c with steps_count := c.steps_count + 1,
                 rejection_reason := some (noTransitionMsg c.state c.tape.GetCurrent) }
        [(c.state, c.cache, c.tape)]
  | step (c : Config) (rule : Rule) (c' : Config) (tr : List (St × Sym × Tape))
      (hacc : c.state ∉ m.accepting_states)
      (hstep : ¬ c.steps_count + 1 > MAX_STEPS)
      (hlk : m.GetTransition c.state c.tape.GetCurrent c.cache = some rule)
      (hrest : RunEval m
        { state := rule.new_state, cache := rule.new_cache,
          steps_count := c.steps_count + 1,
          tape := applyDisplacement (c.tape.Write rule.tape_output) rule.head_direction,
          rejection_reason := c.rejection_reason } c' tr) :
      RunEval m c c' ((c.state, c.cache, c.tape) :: tr)

/-!
Concrete machines used as witnesses, taken from the scenarios of §8 of the
spec (unary-increment recognizer for Scenarios A and B, a forever-looping
machine for Scenario C, a register-branching table for Scenario D).
-/

/-- Scenario A and B machine: unary increment, states q0 and qf. -/
def mScen : TuringMachine :=
  { alphabet := ["0", "1", "_"], input_symbols := ["0", "1"],
    states := ["q0", "qf"], initial_state := "q0", accepting_states := ["qf"],
    transition_function :=
      [ ((("q0", "_"), "1"),
          { new_state := "q0", new_cache := "_", tape_output := "1", head_direction := "R" }),
        ((("q0", "_"), "_"),
          { new_state := "qf", new_cache := "_", tape_output := "1", head_direction := "R" }) ],
    blank_symbol := "_" }

/-- Fresh engine on the Scenario A and B machine. -/
def engA : Engine :=
  mkEngine ["0", "1", "_"] ["0", "1"] ["q0", "qf"] "q0" ["qf"] mScen.transition_function "_"

/-- Scenario C engine: loops in q0 moving right forever, never accepts. -/
def engC : Engine :=
  mkEngine ["0", "_"] ["0"] ["q0", "qf"] "q0" ["qf"]
    [ ((("q0", "_"), "0"),
        { new_state := "q0", new_cache := "_", tape_output := "0", head_direction := "R" }),
      ((("q0", "_"), "_"),
        { new_state := "q0", new_cache := "_", tape_output := "0", head_direction := "R" }) ]
    "_"

/-- Scenario D machine: two rules sharing (q0, 1) but keyed by different
register values a and b, with distinct actions. -/
def mD : TuringMachine :=
  { alphabet := ["1", "_"], input_symbols := ["1"],
    states := ["q0", "q1", "q2"], initial_state := "q0", accepting_states := ["q2"],
    transition_function :=
      [ ((("q0", "a"), "1"),
          { new_state := "q1", new_cache := "a", tape_output := "0", head_direction := "R" }),
        ((("q0", "b"), "1"),
          { new_state := "q2", new_cache := "b", tape_output := "1", head_direction := "L" }) ],
    blank_symbol := "_" }

/-- Engine whose initial state q0 is itself accepting. -/
def engAcc : Engine :=
  mkEngine ["x", "_"] ["x"] ["q0"] "q0" ["q0"] [] "_"

/-- Machine definition violating the §3 invariants: the initial state q0
and the accepting state qf are not members of the declared state set. -/
def engBad : Engine :=
  mkEngine ["_"] ["0"] ["q1"] "q0" ["qf"] [] "_"

/-- Machine with a stay rule: displacement S is neither R nor L. -/
def mStay : TuringMachine :=
  { alphabet := ["1", "_"], input_symbols := ["1"],
    states := ["q0", "qf"], initial_state := "q0", accepting_states := ["qf"],
    transition_function :=
      [ ((("q0", "_"), "1"),
          { new_state := "qf", new_cache := "x", tape_output := "0", head_direction := "S" }) ],
    blank_symbol := "_" }

/-!
Helper lemmas about the association-list lookup and the loop.
-/

/-- A successful lookup returns a value stored in the table. -/
theorem lookupKey_mem {α : Type} (k : TKey) (l : List (TKey × α)) (v : α)
    (h : lookupKey k l = some v) : ∃ k', (k', v) ∈ l := by
  induction l with
  | nil => simp [lookupKey] at h
  | cons p rest ih =>
      cases p with | mk k' v' =>
      rw [lookupKey] at h
      split at h
      · exact ⟨k', by simp [Option.some.inj h]⟩
      · obtain ⟨k'', hk⟩ := ih h
        exact ⟨k'', List.mem_cons_of_mem _ hk⟩

/-- When the stored keys are free of duplicates, as in a Python dict,
membership of a pair determines the lookup result. -/
theorem lookupKey_of_mem {α : Type} (tf : List (TKey × α)) (k : TKey) (v : α)
    (hnd : (tf.map Prod.fst).Nodup) (hmem : (k, v) ∈ tf) :
    lookupKey k tf = some v := by
  induction tf with
  | nil => simp at hmem
  | cons p rest ih =>
      cases p with | mk k' v' =>
      rw [lookupKey]
      rcases List.mem_cons.mp hmem with heq | hmem'
      · cases heq
        rw [if_pos rfl]
      · by_cases hk : k = k'
        · subst hk
          exfalso
          have hmapped : k ∈ rest.map Prod.fst :=
            List.mem_map.mpr ⟨(k, v), hmem', rfl⟩
          have hnd' : (k ∉ rest.map Prod.fst) ∧ (rest.map Prod.fst).Nodup :=
            List.nodup_cons.mp hnd
          exact hnd'.1 hmapped
        · rw [if_neg hk]
          have hnd' : (k' ∉ rest.map Prod.fst) ∧ (rest.map Prod.fst).Nodup :=
            List.nodup_cons.mp hnd
          exact ih hnd'.2 hmem'

/-- When the loop ends through the step-budget break, the final step counter
is MAX_STEPS + 1, the number of transitions applied on top of the starting
step count fills the budget exactly, the stored reason is the budget
message, and the final state is not accepting. -/
theorem loop_budget_spec (m : TuringMachine) :
    ∀ (fuel : Nat) (state : St) (cache : Sym) (steps : Nat) (tape : Tape) (reason : Option String),
    steps ≤ MAX_STEPS →
    (loop m fuel state cache steps tape reason).exitKind = ExitKind.budget →
    (loop m fuel state cache steps tape reason).steps_count = MAX_STEPS + 1 ∧
    steps + (loop m fuel state cache steps tape reason).applied = MAX_STEPS ∧
    (loop m fuel state cache steps tape reason).rejection_reason = some budgetMsg ∧
    (loop m fuel state cache steps tape reason).state ∉ m.accepting_states := by
  intro fuel
  induction fuel with
  | zero =>
      intro state cache steps tape reason _ hx
      simp [loop] at hx
  | succ n ih =>
      intro state cache steps tape reason hle hx
      by_cases hacc : state ∈ m.accepting_states
      · simp [loop, hacc] at hx
      · by_cases hb : steps + 1 > MAX_STEPS
        · have hs : steps = MAX_STEPS := by omega
          subst hs
          simp [loop, hacc, hb]
        · cases hlk : m.GetTransition state tape.GetCurrent cache with
          | none => simp [loop, hacc, hb, hlk] at hx
          | some rule =>
              have hb' : steps + 1 ≤ MAX_STEPS := by omega
              have hx' : (loop m n rule.new_state rule.new_cache (steps + 1)
                  (applyDisplacement (tape.Write rule.tape_output) rule.head_direction)
                  reason).exitKind = ExitKind.budget := by
                simpa [loop, hacc, hb, hlk] using hx
              obtain ⟨h1, h2, h3, h4⟩ := ih rule.new_state rule.new_cache (steps + 1)
                (applyDisplacement (tape.Write rule.tape_output) rule.head_direction)
                reason hb' hx'
              refine ⟨?_, ?_, ?_, ?_⟩
              · simp only [loop, if_neg hacc, if_neg hb, hlk]
                exact h1
              · simp only [loop, if_neg hacc, if_neg hb, hlk]
                omega
              · simp only [loop, if_neg hacc, if_neg hb, hlk]
                exact h3
              · simp only [loop, if_neg hacc, if_neg hb, hlk]
                exact h4

/-- When the loop ends through the missing-transition break, the stored
reason is the no-transition message built from the final state and the
symbol under the head, the lookup at the final configuration indeed fails,
and the final state is not accepting. -/
theorem loop_stuck_spec (m : TuringMachine) :
    ∀ (fuel : Nat) (state : St) (cache : Sym) (steps : Nat) (tape : Tape) (reason : Option String),
    (loop m fuel state cache steps tape reason).exitKind = ExitKind.noTransition →
    (loop m fuel state cache steps tape reason).rejection_reason =
      some (noTransitionMsg (loop m fuel state cache steps tape reason).state
        (loop m fuel state cache steps tape reason).tape.GetCurrent) ∧
    m.GetTransition (loop m fuel state cache steps tape reason).state
      (loop m fuel state cache steps tape reason).tape.GetCurrent
      (loop m fuel state cache steps tape reason).cache = none ∧
    (loop m fuel state cache steps tape reason).state ∉ m.accepting_states := by
  intro fuel
  induction fuel with
  | zero =>
      intro state cache steps tape reason hx
      simp [loop] at hx
  | succ n ih =>
      intro state cache steps tape reason hx
      by_cases hacc : state ∈ m.accepting_states
      · simp [loop, hacc] at hx
      · by_cases hb : steps + 1 > MAX_STEPS
        · simp [loop, hacc, hb] at hx
        · cases hlk : m.GetTransition state tape.GetCurrent cache with
          | none =>
              refine ⟨?_, ?_, ?_⟩
              · simp only [loop, if_neg hacc, if_neg hb, hlk]
              · simp only [loop, if_neg hacc, if_neg hb, hlk]
              · simp only [loop, if_neg hacc, if_neg hb, hlk]
                exact hacc
          | some rule =>
              have hx' : (loop m n rule.new_state rule.new_cache (steps + 1)
                  (applyDisplacement (tape.Write rule.tape_output) rule.head_direction)
                  reason).exitKind = ExitKind.noTransition := by
                simpa [loop, hacc, hb, hlk] using hx
              obtain ⟨h1, h2, h3⟩ := ih rule.new_state rule.new_cache (steps + 1)
                (applyDisplacement (tape.Write rule.tape_output) rule.head_direction)
                reason hx'
              refine ⟨?_, ?_, ?_⟩
              · simp only [loop, if_neg hacc, if_neg hb, hlk]
                exact h1
              · simp only [loop, if_neg hacc, if_neg hb, hlk]
                exact h2
              · simp only [loop, if_neg hacc, if_neg hb, hlk]
                exact h3

/-- The fuel-indexed loop agrees with the big-step relation RunEval on
every run that does not exhaust its fuel; Run always supplies enough fuel. -/
theorem loop_sound (m : TuringMachine) :
    ∀ (fuel : Nat) (state : St) (cache : Sym) (steps : Nat) (tape : Tape) (reason : Option String),
    (loop m fuel state cache steps tape reason).exitKind ≠ ExitKind.fuelOut →
    RunEval m
      { state := state, cache := cache, steps_count := steps, tape := tape,
        rejection_reason := reason }
      { state := (loop m fuel state cache steps tape reason).state,
        cache := (loop m fuel state cache steps tape reason).cache,
        steps_count := (loop m fuel state cache steps tape reason).steps_count,
        tape := (loop m fuel state cache steps tape reason).tape,
        rejection_reason := (loop m fuel state cache steps tape reason).rejection_reason }
      (loop m fuel state cache steps tape reason).trace := by
  intro fuel
  induction fuel with
  | zero =>
      intro state cache steps tape reason hx
      exact absurd rfl hx
  | succ n ih =>
      intro state cache steps tape reason hx
      by_cases hacc : state ∈ m.accepting_states
      · simp only [loop, if_pos hacc]
        exact RunEval.accept _ hacc
      · by_cases hb : steps + 1 > MAX_STEPS
        · simp only [loop, if_neg hacc, if_pos hb]
          exact RunEval.budget _ hacc hb
        · cases hlk : m.GetTransition state tape.GetCurrent cache with
          | none =>
              simp only [loop, if_neg hacc, if_neg hb, hlk]
              exact RunEval.stuck _ hacc hb hlk
          | some rule =>
              have hx' : (loop m n rule.new_state rule.new_cache (steps + 1)
                  (applyDisplacement (tape.Write rule.tape_output) rule.head_direction)
                  reason).exitKind ≠ ExitKind.fuelOut := by
                intro h
                apply hx
                simp only [loop, if_neg hacc, if_neg hb, hlk]
                exact h
              have hrec := ih rule.new_state rule.new_cache (steps + 1)
                (applyDisplacement (tape.Write rule.tape_output) rule.head_direction)
                reason hx'
              simp only [loop, if_neg hacc, if_neg hb, hlk]
              exact RunEval.step _ rule _ _ hacc hb hlk hrec

/-!
Claim theorems.
-/

/-- Claim C1, amended.  Whenever Run returns because no transition matched,
the result is a first-class Rejected outcome, not an exception: the run
result exists, its reason is the no-transition message built from the
offending state and the symbol under the head, and the transition lookup at
the full (state, register, symbol) triple of the final configuration
fails.  The message of src/main.py line 56 interpolates only the state and
the symbol, not the register, so the reason names the (state, symbol) pair
rather than the full triple claimed. -/
theorem run_missing_transition_spec (e : Engine) (w : List Sym) (res : RunResult)
    (hrun : e.Run w = some res) (hx : res.exitKind = ExitKind.noTransition) :
    ∃ t, res.engine.tape = some t ∧
      res.engine.rejection_reason =
        some (noTransitionMsg res.engine.current_state t.GetCurrent) ∧
      e.machine.GetTransition res.engine.current_state t.GetCurrent
        res.engine.cache = none ∧
      res.outcome =
        Outcome.rejected (some (noTransitionMsg res.engine.current_state t.GetCurrent)) := by
  unfold Engine.Run at hrun
  cases htm : Tape.make w e.machine.blank_symbol with
  | none => rw [htm] at hrun; simp at hrun
  | some tape =>
      rw [htm] at hrun
      simp only [Option.some.injEq] at hrun
      subst hrun
      obtain ⟨h1, h2, h3⟩ := loop_stuck_spec e.machine (MAX_STEPS + 1)
        e.current_state e.cache 0 tape e.rejection_reason (by simpa using hx)
      refine ⟨(loop e.machine (MAX_STEPS + 1) e.current_state e.cache 0 tape
        e.rejection_reason).tape, ?_, ?_, ?_, ?_⟩
      · simp
      · simpa using h1
      · simpa using h2
      · simp [if_neg h3, h1]

/-- Claim C1 witness: Scenario B, the unary-increment machine on input 1a. -/
theorem run_missing_transition_spec_witness :
    ∃ res, engA.Run ["1", "a"] = some res ∧
      ∃ t, res.engine.tape = some t ∧
        res.engine.rejection_reason =
          some (noTransitionMsg res.engine.current_state t.GetCurrent) ∧
        engA.machine.GetTransition res.engine.current_state t.GetCurrent
          res.engine.cache = none ∧
        res.outcome =
          Outcome.rejected (some (noTransitionMsg res.engine.current_state t.GetCurrent)) :=
  ⟨_, rfl, run_missing_transition_spec engA ["1", "a"] _ rfl (by decide)⟩

/-- Claim C1 counterexample: on the Scenario B machine with input 1a the
rejection reason is the string No valid transition for (q0, a), which
mentions only the state and the symbol and differs from the reason claimed,
no transition for (q0, _, a), which also names the register. -/
theorem scenarioB_reason_counterexample :
    ∃ res, engA.Run ["1", "a"] = some res ∧
      res.outcome = Outcome.rejected (some "No valid transition for (q0, a)") ∧
      res.engine.rejection_reason = some "No valid transition for (q0, a)" ∧
      "No valid transition for (q0, a)" ≠ "no transition for (q0, _, a)" :=
  ⟨_, rfl, by decide, by decide, by decide⟩

/-- Claim C2, amended.  Run rebuilds the tape and resets the step counter
at the start of every call, so its result does not depend on the tape or
step-count fields of the engine; but the current state, the register and
the rejection reason are NOT reset (src/main.py lines 34-40 reset only
tape and steps_count), so two engines agreeing on machine, current state,
register and stored reason produce identical runs, while runs on an engine
mutated by an earlier Run can differ from runs on a fresh engine. -/
theorem run_fresh_fields_spec (e1 e2 : Engine) (w : List Sym)
    (hm : e1.machine = e2.machine) (hs : e1.current_state = e2.current_state)
    (hc : e1.cache = e2.cache) (hr : e1.rejection_reason = e2.rejection_reason) :
    e1.Run w = e2.Run w := by
  unfold Engine.Run
  rw [hm, hs, hc, hr]

/-- Engine engA with its tape and step-count fields altered; Run ignores
both fields. -/
def engAmod : Engine :=
  { engA with steps_count := 7,
              tape := some { left := [], cur := "1", right := [], blank := "_" } }

/-- Claim C2 witness: an engine with dirty tape and step-counter fields
runs exactly like the fresh engine. -/
theorem run_fresh_fields_spec_witness : engA.Run ["1"] = engAmod.Run ["1"] :=
  run_fresh_fields_spec engA engAmod ["1"] rfl rfl rfl rfl

/-- Claim C2 counterexample: after an accepting run of the Scenario A
machine on input 11, the same engine object accepts the input 0 immediately
because current_state was left at qf, whereas a fresh run on input 0 is
rejected; so the outcome of Run does depend on an earlier run performed on
the same engine. -/
theorem rerun_same_engine_counterexample :
    ∃ r1 r2 r3, engA.Run ["1", "1"] = some r1 ∧
      r1.engine.Run ["0"] = some r2 ∧
      engA.Run ["0"] = some r3 ∧
      r2.outcome = Outcome.accepted ∧
      r3.outcome = Outcome.rejected (some (noTransitionMsg "q0" "0")) ∧
      r2.outcome ≠ r3.outcome ∧
      r1.engine.current_state ≠ engA.current_state :=
  ⟨_, _, _, rfl, rfl, rfl, by decide, by decide, by decide, by decide⟩

/-- Claim C3, amended.  Tape construction on an empty input does not
succeed: the constructor indexes string[0] unconditionally and raises
IndexError, modelled as none.  On any non-empty input it yields the tape
holding exactly the input symbols with the head on the first of them, so a
subsequent read returns the first input symbol. -/
theorem tape_make_spec : ∀ (b : Sym),
    Tape.make [] b = none ∧
    ∀ (c : Sym) (rest : List Sym),
      Tape.make (c :: rest) b = some { left := [], cur := c, right := rest, blank := b } ∧
      ({ left := [], cur := c, right := rest, blank := b } : Tape).GetCurrent = c := by
  intro b
  exact ⟨rfl, fun c rest => ⟨rfl, rfl⟩⟩

/-- Claim C3 counterexample: constructing the tape from the empty input
with the default blank symbol produces no tape at all (the IndexError
path), rather than a single blank cell. -/
theorem tape_empty_input_counterexample : Tape.make [] BLANK_SYMBOL = none := rfl

/-- Claim C4.  Whenever a run ends through the step-budget break, exactly
MAX_STEPS transitions were applied, the stored step counter is
MAX_STEPS + 1 (the counter is incremented once more on the breaking
iteration), and the outcome is Rejected with the message naming the
500-step budget.  Termination itself is inherent in the embedding: Run is
a total function. -/
theorem step_budget_spec (e : Engine) (w : List Sym) (res : RunResult)
    (hrun : e.Run w = some res) (hx : res.exitKind = ExitKind.budget) :
    res.applied = MAX_STEPS ∧ res.engine.steps_count = MAX_STEPS + 1 ∧
    res.outcome = Outcome.rejected (some budgetMsg) := by
  unfold Engine.Run at hrun
  cases htm : Tape.make w e.machine.blank_symbol with
  | none => rw [htm] at hrun; simp at hrun
  | some tape =>
      rw [htm] at hrun
      simp only [Option.some.injEq] at hrun
      subst hrun
      obtain ⟨h1, h2, h3, h4⟩ := loop_budget_spec e.machine (MAX_STEPS + 1)
        e.current_state e.cache 0 tape e.rejection_reason (by omega) (by simpa using hx)
      refine ⟨?_, ?_, ?_⟩
      · simpa using h2
      · simpa using h1
      · simp [if_neg h4, h3]

set_option maxRecDepth 40000 in
/-- Claim C4 witness: Scenario C, a machine looping right forever, is
rejected with the budget message after exactly MAX_STEPS transitions. -/
theorem step_budget_spec_witness :
    ∃ res, engC.Run ["0"] = some res ∧ res.applied = MAX_STEPS ∧
      res.engine.steps_count = MAX_STEPS + 1 ∧
      res.outcome = Outcome.rejected (some budgetMsg) :=
  ⟨_, rfl, step_budget_spec engC ["0"] _ rfl (by decide)⟩

/-- Claim C5, amended.  Engine construction performs no validation at all:
src/main.py lines 13-32 only store the given definition, there is no
ConfigurationError anywhere in the program, construction succeeds for
every machine definition whether or not it satisfies the data-model
invariants, and running such an instance is possible. -/
theorem construction_no_validation (al is : List Sym) (sts : List St) (init : St)
    (acc : List St) (tf : TransitionFunction) (bl : Sym) (w : List Sym)
    (hw : w ≠ []) :
    mkEngine al is sts init acc tf bl =
      { machine :=
          { alphabet := al, input_symbols := is, states := sts,
            initial_state := init, accepting_states := acc,
            transition_function := tf, blank_symbol := bl },
        tape := none, cache := bl, current_state := init,
        rejection_reason := none, steps_count := 0 } ∧
    ∃ res, (mkEngine al is sts init acc tf bl).Run w = some res := by
  refine ⟨rfl, ?_⟩
  cases w with
  | nil => exact absurd rfl hw
  | cons c rest => exact ⟨_, rfl⟩

/-- Claim C5 witness: the invariant-violating definition below constructs
and runs. -/
theorem construction_no_validation_witness :
    mkEngine ["_"] ["0"] ["q1"] "q0" ["qf"] [] "_" =
      { machine :=
          { alphabet := ["_"], input_symbols := ["0"], states := ["q1"],
            initial_state := "q0", accepting_states := ["qf"],
            transition_function := [], blank_symbol := "_" },
        tape := none, cache := "_", current_state := "q0",
        rejection_reason := none, steps_count := 0 } ∧
    ∃ res, (mkEngine ["_"] ["0"] ["q1"] "q0" ["qf"] [] "_").Run ["0"] = some res :=
  construction_no_validation ["_"] ["0"] ["q1"] "q0" ["qf"] [] "_" ["0"] (by decide)

/-- Claim C5 counterexample: a definition whose initial state q0 and
accepting state qf are not in the declared state set constructs without any
error, and a run on that instance completes with an ordinary outcome, so no
ConfigurationError is ever raised. -/
theorem invalid_machine_constructs_counterexample :
    engBad.machine.initial_state ∉ engBad.machine.states ∧
    "qf" ∈ engBad.machine.accepting_states ∧ "qf" ∉ engBad.machine.states ∧
    ∃ res, engBad.Run ["0"] = some res ∧
      res.outcome = Outcome.rejected (some (noTransitionMsg "q0" "0")) :=
  ⟨by decide, by decide, by decide, _, rfl, by decide⟩

/-- Claim C6.  The transition lookup is keyed by the full (state, register,
symbol) triple: in any table with duplicate-free keys (Python dict
semantics), two rules sharing (state, symbol) but stored under different
register values are each selected exactly by the configuration carrying
their own register value. -/
theorem transition_key_includes_register (m : TuringMachine) (s : St)
    (v c1 c2 : Sym) (a1 a2 : Rule) (_hne : c1 ≠ c2)
    (hnd : (m.transition_function.map Prod.fst).Nodup)
    (h1 : (((s, c1), v), a1) ∈ m.transition_function)
    (h2 : (((s, c2), v), a2) ∈ m.transition_function) :
    m.GetTransition s v c1 = some a1 ∧ m.GetTransition s v c2 = some a2 :=
  ⟨lookupKey_of_mem _ _ _ hnd h1, lookupKey_of_mem _ _ _ hnd h2⟩

/-- Claim C6 witness: Scenario D, two rules on (q0, 1) keyed by register
values a and b select their own distinct actions. -/
theorem transition_key_includes_register_witness :
    mD.GetTransition "q0" "1" "a" =
      some { new_state := "q1", new_cache := "a", tape_output := "0", head_direction := "R" } ∧
    mD.GetTransition "q0" "1" "b" =
      some { new_state := "q2", new_cache := "b", tape_output := "1", head_direction := "L" } :=
  transition_key_includes_register mD "q0" "1" "a" "b" _ _ (by decide) (by decide)
    (by decide) (by decide)

/-- Claim C7, amended.  On a machine whose initial state is accepting, Run
halts immediately with Accepted for every NON-EMPTY input: no transition is
applied, the step counter stays 0, the tape is exactly the freshly built
input tape, and the trace is empty.  For the empty input the claim fails:
tape construction raises before the accepting check is reached. -/
theorem accepting_initial_immediate_accept (al is : List Sym) (sts : List St)
    (init : St) (acc : List St) (tf : TransitionFunction) (bl : Sym)
    (w : List Sym) (hinit : init ∈ acc) (hw : w ≠ []) :
    ∃ t, Tape.make w bl = some t ∧
      (mkEngine al is sts init acc tf bl).Run w =
        some
          { outcome := Outcome.accepted,
            engine :=
              { machine := (mkEngine al is sts init acc tf bl).machine,
                tape := some t, cache := bl, current_state := init,
                rejection_reason := none, steps_count := 0 },
            trace := [], applied := 0, exitKind := ExitKind.accepted } := by
  cases w with
  | nil => exact absurd rfl hw
  | cons ch rest =>
      refine ⟨{ left := [], cur := ch, right := rest, blank := bl }, rfl, ?_⟩
      unfold Engine.Run mkEngine Tape.make
      simp [loop, hinit]

/-- Claim C7 witness: an engine whose initial state q0 is accepting accepts
the input x with zero steps, untouched tape and empty trace. -/
theorem accepting_initial_immediate_accept_witness :
    ∃ t, Tape.make ["x"] "_" = some t ∧
      (mkEngine ["x", "_"] ["x"] ["q0"] "q0" ["q0"] [] "_").Run ["x"] =
        some
          { outcome := Outcome.accepted,
            engine :=
              { machine := (mkEngine ["x", "_"] ["x"] ["q0"] "q0" ["q0"] [] "_").machine,
                tape := some t, cache := "_", current_state := "q0",
                rejection_reason := none, steps_count := 0 },
            trace := [], applied := 0, exitKind := ExitKind.accepted } :=
  accepting_initial_immediate_accept ["x", "_"] ["x"] ["q0"] "q0" ["q0"] [] "_" ["x"]
    (by decide) (by decide)

/-- Claim C7 counterexample: the same accepting-initial engine crashes on
the empty input (tape construction raises IndexError, modelled none)
instead of accepting, so the claim does not hold for every input string. -/
theorem accepting_initial_empty_input_counterexample :
    engAcc.current_state ∈ engAcc.machine.accepting_states ∧ engAcc.Run [] = none :=
  ⟨by decide, rfl⟩

/-- Claim C8.  The run relation is deterministic: from one starting
configuration the big-step evaluation relation of the loop admits exactly
one final configuration and one trace, hence identical outcomes and
identical per-step configuration sequences on repeated runs (theorem
loop_sound connects the relation to the executable loop). -/
theorem run_deterministic (m : TuringMachine) (c c1 c2 : Config)
    (t1 t2 : List (St × Sym × Tape))
    (h1 : RunEval m c c1 t1) (h2 : RunEval m c c2 t2) : c1 = c2 ∧ t1 = t2 := by
  induction h1 generalizing c2 t2 with
  | accept c h =>
      cases h2 with
      | accept _ _ => exact ⟨rfl, rfl⟩
      | budget _ hacc _ => exact absurd h hacc
      | stuck _ hacc _ _ => exact absurd h hacc
      | step _ _ _ _ hacc _ _ _ => exact absurd h hacc
  | budget c hacc hstep =>
      cases h2 with
      | accept _ h => exact absurd h hacc
      | budget _ _ _ => exact ⟨rfl, rfl⟩
      | stuck _ _ hstep2 _ => exact absurd hstep hstep2
      | step _ _ _ _ _ hstep2 _ _ => exact absurd hstep hstep2
  | stuck c hacc hstep hlk =>
      cases h2 with
      | accept _ h => exact absurd h hacc
      | budget _ _ hstep2 => exact absurd hstep2 hstep
      | stuck _ _ _ _ => exact ⟨rfl, rfl⟩
      | step _ rule _ _ _ _ hlk2 _ => rw [hlk] at hlk2; exact Option.noConfusion hlk2
  | step c rule c' tr hacc hstep hlk hrest ih =>
      cases h2 with
      | accept _ h => exact absurd h hacc
      | budget _ _ hstep2 => exact absurd hstep2 hstep
      | stuck _ _ _ hlk2 => rw [hlk2] at hlk; exact Option.noConfusion hlk
      | step _ rule2 c2' tr2 _ _ hlk2 hrest2 =>
          rw [hlk] at hlk2
          have hrr : rule = rule2 := Option.some.inj hlk2
          subst hrr
          obtain ⟨hc', ht'⟩ := ih _ _ hrest2
          exact ⟨hc', by rw [ht']⟩

/-- Stay-displacement rule used by the witnesses below. -/
def ruleStay : Rule :=
  { new_state := "qf", new_cache := "x", tape_output := "0", head_direction := "S" }

/-- One-cell tape holding the symbol 1. -/
def tStay : Tape := { left := [], cur := "1", right := [], blank := "_" }

/-- Starting configuration for the stay-rule machine. -/
def cStay0 : Config :=
  { state := "q0", cache := "_", steps_count := 0, tape := tStay,
    rejection_reason := none }

/-- Configuration after the single stay step: new state and register, the
output symbol written, the head not moved. -/
def cStay1 : Config :=
  { state := "qf", cache := "x", steps_count := 1,
    tape := { left := [], cur := "0", right := [], blank := "_" },
    rejection_reason := none }

/-- Claim C8 witness: two derivations of the one-step run of the stay-rule
machine are forced to the same final configuration and trace. -/
theorem run_deterministic_witness :
    cStay1 = cStay1 ∧
    ([("q0", "_", tStay)] : List (St × Sym × Tape)) = [("q0", "_", tStay)] :=
  run_deterministic mStay cStay0 cStay1 cStay1 _ _
    (RunEval.step cStay0 ruleStay cStay1 [] (by decide) (by decide) (by decide)
      (RunEval.accept cStay1 (by decide)))
    (RunEval.step cStay0 ruleStay cStay1 [] (by decide) (by decide) (by decide)
      (RunEval.accept cStay1 (by decide)))

/-- Claim C9.  A step whose rule displacement is neither R nor L still
writes the output symbol and continues in the rule's state and register,
with the head position unchanged: the loop proceeds on the same tape with
only the cell under the head overwritten (left and right contexts and the
blank are untouched). -/
theorem stay_step_spec (m : TuringMachine) (fuel : Nat) (state : St) (cache : Sym)
    (steps : Nat) (tape : Tape) (reason : Option String) (rule : Rule)
    (hacc : state ∉ m.accepting_states)
    (hsteps : ¬ steps + 1 > MAX_STEPS)
    (hlk : m.GetTransition state tape.GetCurrent cache = some rule)
    (hR : rule.head_direction ≠ RIGHT) (hL : rule.head_direction ≠ LEFT) :
    loop m (fuel + 1) state cache steps tape reason =
      (let r := loop m fuel rule.new_state rule.new_cache (steps + 1)
          { tape with cur := rule.tape_output } reason
       { r with trace := (state, cache, tape) :: r.trace, applied := r.applied + 1 }) := by
  have hdisp : applyDisplacement (tape.Write rule.tape_output) rule.head_direction =
      { tape with cur := rule.tape_output } := by
    unfold applyDisplacement Tape.Write
    rw [if_neg hR, if_neg hL]
  simp only [loop, if_neg hacc, if_neg hsteps, hlk, hdisp]

/-- Claim C9 witness: the stay rule S on the one-cell tape writes 0 and
moves to state qf and register x without moving the head. -/
theorem stay_step_spec_witness :
    loop mStay (3 + 1) "q0" "_" 0 tStay none =
      (let r := loop mStay 3 ruleStay.new_state ruleStay.new_cache (0 + 1)
          (tStay.Write ruleStay.tape_output) none
       { r with trace := ("q0", "_", tStay) :: r.trace, applied := r.applied + 1 }) :=
  stay_step_spec mStay 3 "q0" "_" 0 tStay none ruleStay
    (by decide) (by decide) (by decide) (by decide) (by decide)

/-- Claim C10.  On any transition table whose stored values are all
well-formed triples, a present key never reaches the caught-IndexError
branch that aborts the process: the unpacking code returns exactly the four
components of the stored rule. -/
theorem wellformed_table_decode_ok (tf : List (TKey × PyVal)) (state : St)
    (tape_value cache_value : Sym) (r : DecodeResult)
    (hwf : ∀ p ∈ tf, WellFormedPy p.2)
    (hlk : GetTransitionRaw tf state tape_value cache_value = some r) :
    ∃ ns nc out dir,
      lookupKey ((state, cache_value), tape_value) tf =
        some (PyVal.tup [PyVal.tup [PyVal.str ns, PyVal.str nc],
          PyVal.str out, PyVal.str dir]) ∧
      r = DecodeResult.ok (PyVal.str ns) (PyVal.str nc) (PyVal.str out)
        (PyVal.str dir) := by
  unfold GetTransitionRaw at hlk
  cases hv : lookupKey ((state, cache_value), tape_value) tf with
  | none => rw [hv] at hlk; simp at hlk
  | some v =>
      rw [hv] at hlk
      simp only [Option.map_some', Option.some.injEq] at hlk
      obtain ⟨k', hk⟩ := lookupKey_mem _ _ _ hv
      obtain ⟨ns, nc, out, dir, hveq⟩ := hwf _ hk
      subst hveq
      refine ⟨ns, nc, out, dir, rfl, ?_⟩
      rw [← hlk]
      rfl

/-- Raw one-rule table with a well-formed stored triple. -/
def rawTable : List (TKey × PyVal) :=
  [ ((("q0", "_"), "1"),
      PyVal.tup [PyVal.tup [PyVal.str "q1", PyVal.str "_"], PyVal.str "1", PyVal.str "R"]) ]

/-- Claim C10 witness: decoding the stored rule of the raw table yields its
four components, not the malformed branch. -/
theorem wellformed_table_decode_ok_witness :
    ∃ ns nc out dir,
      lookupKey ((("q0", "_"), "1") : TKey) rawTable =
        some (PyVal.tup [PyVal.tup [PyVal.str ns, PyVal.str nc],
          PyVal.str out, PyVal.str dir]) ∧
      DecodeResult.ok (PyVal.str "q1") (PyVal.str "_") (PyVal.str "1") (PyVal.str "R") =
        DecodeResult.ok (PyVal.str ns) (PyVal.str nc) (PyVal.str out) (PyVal.str dir) :=
  wellformed_table_decode_ok rawTable "q0" "1" "_"
    (DecodeResult.ok (PyVal.str "q1") (PyVal.str "_") (PyVal.str "1") (PyVal.str "R"))
    (by
      intro p hp
      simp only [rawTable, List.mem_singleton] at hp
      subst hp
      exact ⟨"q1", "_", "1", "R", rfl⟩)
    rfl

end PROY3
